import Mathlib

/-!
Verification of the chrome-leetcode-tracker submission-capture and
repository-reconciliation pipeline.

The definitions below are a shallow embedding of the JavaScript source:

* `isDigitChar`, `jsWhitespaceChar`, `jsLineTerminator` model the JS regex
  character classes `\d`, `\s` and the line terminators excluded by `.`
  (by code point, as JS regexes operate on code units).
* `matchesProblemPattern` embeds the filter regex `^\d{4}\s+.+\..+$` from
  `getAllLeetCodeProblems` (background.js).
* `convertGithubToLeetCodeSlug` embeds the canonical-identifier derivation
  (background.js): match `^(\d{4})\s+`, `parseInt` the captured group,
  re-stringify; otherwise return `""`.
* Scanner, counter, sync and poller models follow in later sections.
-/

/-- JS regex class `\d`: code points 48–57. -/
def isDigitChar (c : Char) : Bool :=
  48 ≤ c.toNat && c.toNat ≤ 57

/-- JS regex class `\s`: tab, LF, VT, FF, CR, space, NBSP, Unicode spaces,
line/paragraph separators, narrow NBSP, medium mathematical space,
ideographic space, BOM. -/
def jsWhitespaceChar (c : Char) : Bool :=
  c.toNat == 9 || c.toNat == 10 || c.toNat == 11 || c.toNat == 12 ||
  c.toNat == 13 || c.toNat == 32 || c.toNat == 160 || c.toNat == 5760 ||
  (8192 ≤ c.toNat && c.toNat ≤ 8202) || c.toNat == 8232 ||
  c.toNat == 8233 || c.toNat == 8239 || c.toNat == 8287 ||
  c.toNat == 12288 || c.toNat == 65279

/-- JS line terminators: LF, CR, LS, PS. The regex `.` (without the `s`
flag) matches any character except these. -/
def jsLineTerminator (c : Char) : Bool :=
  c.toNat == 10 || c.toNat == 13 || c.toNat == 8232 || c.toNat == 8233

/-- `.+\..+$` on the remainder of the input: at least one non-terminator
character, a literal dot, at least one non-terminator character, end.
Equivalently: no line terminator anywhere, and a dot at an interior
position. -/
def tailPatternMatch (l : List Char) : Bool :=
  decide (3 ≤ l.length) && l.all (fun c => !jsLineTerminator c) &&
    (l.drop 1).dropLast.contains '.'

/-- `\s+` followed by `.+\..+$`, with the regex-engine backtracking over
how many whitespace characters `\s+` consumes. -/
def wsThenTailMatch : List Char → Bool
  | [] => false
  | c :: r => jsWhitespaceChar c && (tailPatternMatch r || wsThenTailMatch r)

/-- The file filter `^\d{4}\s+.+\..+$` of `getAllLeetCodeProblems`
(background.js line 228). -/
def matchesProblemPattern (s : String) : Bool :=
  match s.data with
  | d1 :: d2 :: d3 :: d4 :: rest =>
    isDigitChar d1 && isDigitChar d2 && isDigitChar d3 && isDigitChar d4 &&
      wsThenTailMatch rest
  | _ => false

/-- Numeric value of a digit character, as `parseInt` sees it. -/
def digitVal (c : Char) : Nat :=
  c.toNat - 48

/-- `convertGithubToLeetCodeSlug` (background.js lines 258–266): match
`^(\d{4})\s+`; on success `parseInt(match[1], 10).toString()` (which
strips leading zeros), otherwise `""`. -/
def convertGithubToLeetCodeSlug (s : String) : String :=
  match s.data with
  | d1 :: d2 :: d3 :: d4 :: w :: _ =>
    if isDigitChar d1 && isDigitChar d2 && isDigitChar d3 && isDigitChar d4 &&
        jsWhitespaceChar w then
      Nat.repr (1000 * digitVal d1 + 100 * digitVal d2 + 10 * digitVal d3 +
        digitVal d4)
    else ""
  | _ => ""

/-- Literal leading-zero stripping on a character list, the behaviour the
spec ascribes to the derivation (`"0001"` becomes `"1"`, all zeros become
`"0"`). Used to compare against parse-then-restringify. -/
def stripLeadingZeros (l : List Char) : List Char :=
  match l.dropWhile (· == '0') with
  | [] => ['0']
  | r => r

/-! ## Repository scanner (`GitHubService.getAllLeetCodeProblems`) -/

/-- A GitHub contents-API entry: a name plus a type tag (`"dir"`,
`"file"`, …). -/
structure RepoEntry where
  name : String
  type : String
deriving DecidableEq, Repr

/-- A scanned problem file, as built by `getAllLeetCodeProblems`
(background.js lines 229–233). -/
structure RepoProblem where
  originalName : String
  questionId : String
  language : String
deriving DecidableEq, Repr

/-- Outcome of one `fetch` + `json()` round trip: a payload, a non-ok
HTTP response, or a thrown error (network failure, malformed JSON, or an
invalid repository configuration for the top-level call). -/
inductive FetchOutcome (α : Type) where
  | ok (payload : α)
  | notOk
  | threw
deriving DecidableEq, Repr

/-- Body of the per-folder loop (background.js lines 220–241): a folder
whose fetch succeeds contributes its file entries that match the problem
pattern, mapped through the canonical-identifier derivation; a non-ok
response or a thrown error contributes nothing (the `try`/`catch` inside
the loop isolates the failure). -/
def scanFolder (folderFetch : String → FetchOutcome (List RepoEntry))
    (folder : RepoEntry) : List RepoProblem :=
  match folderFetch folder.name with
  | .ok folderData =>
    (folderData.filter
        (fun f => f.type == "file" && matchesProblemPattern f.name)).map
      (fun f => ⟨f.name, convertGithubToLeetCodeSlug f.name, folder.name⟩)
  | .notOk => []
  | .threw => []

/-- `getAllLeetCodeProblems` (background.js lines 197–249): on a top-level
failure of any kind return `[]` (the explicit `return []` for a non-ok
response, the outer `catch` for a thrown error); otherwise keep the
directory entries and accumulate each folder's surviving files. -/
def getAllLeetCodeProblems (top : FetchOutcome (List RepoEntry))
    (folderFetch : String → FetchOutcome (List RepoEntry)) :
    List RepoProblem :=
  match top with
  | .ok data => (data.filter (fun item => item.type == "dir")).flatMap
      (scanFolder folderFetch)
  | .notOk => []
  | .threw => []

/-- `String.prototype.toLowerCase` on the ASCII difficulty strings,
written so that it evaluates by kernel reduction. -/
def jsToLowerCase (s : String) : String :=
  ⟨s.data.map Char.toLower⟩

/-! ## Counters (`LeetCodeStateManager`) -/

/-- The difficulty counter triple. JS numbers are modelled as integers so
that non-negativity is a real property rather than a typing artifact. -/
structure Counter where
  easy : Int
  medium : Int
  hard : Int
deriving DecidableEq, Repr

/-- One iteration of the `updateStats` loop (background.js lines 61–68):
skip falsy values (`undefined`, `""`), lower-case, and increment the
matching key if it is one of the three counters. -/
def updateStatsStep (c : Counter) (d : Option String) : Counter :=
  match d with
  | none => c
  | some s =>
    if s = "" then c
    else
      let n := jsToLowerCase s
      if n = "easy" then { c with easy := c.easy + 1 }
      else if n = "medium" then { c with medium := c.medium + 1 }
      else if n = "hard" then { c with hard := c.hard + 1 }
      else c

/-- `updateStats` (background.js lines 58–75), restricted to the counter
it computes: reset to zero, then fold the difficulty list. -/
def updateStats (ds : List (Option String)) : Counter :=
  ds.foldl updateStatsStep ⟨0, 0, 0⟩

/-- `incrementCounter` (background.js lines 34–44): falsy difficulty
returns early (JS `undefined`, modelled `none`); otherwise lower-case and
increment on a key hit (returning `true`) or leave untouched (returning
`false`). -/
def incrementCounter (c : Counter) (d : Option String) :
    Counter × Option Bool :=
  match d with
  | none => (c, none)
  | some s =>
    if s = "" then (c, none)
    else
      let n := jsToLowerCase s
      if n = "easy" then ({ c with easy := c.easy + 1 }, some true)
      else if n = "medium" then ({ c with medium := c.medium + 1 }, some true)
      else if n = "hard" then ({ c with hard := c.hard + 1 }, some true)
      else (c, some false)

/-- `new Map(allQuestions.map(q => [q.questionId, q.difficulty])).get id`:
a JS `Map` built from a list keeps the last binding for a key. -/
def difficultyMapGet (qs : List (String × String)) (qid : String) :
    Option String :=
  (qs.reverse.find? (fun q => q.1 == qid)).map (·.2)

/-- `problems.map(p => difficultyMap.get(p.questionId))` (background.js
lines 475–477): missing catalog entries become `undefined`. -/
def computeDifficulties (problems : List RepoProblem)
    (qs : List (String × String)) : List (Option String) :=
  problems.map (fun p => difficultyMapGet qs p.questionId)

/-- The reconciliation performed by `initCounter`'s happy path: derive the
difficulty list and recount wholesale. -/
def reconcile (problems : List RepoProblem) (qs : List (String × String)) :
    Counter :=
  updateStats (computeDifficulties problems qs)

/-! ## Sync orchestration (`LeetCodeTrackerController.startSync`) -/

/-- Behaviour of `this.syncService.startSync()` as observed by the
caller: it either completes with a `{success, message}` result or throws
an error carrying a message. -/
inductive SyncOutcome where
  | completed (success : Bool) (message : String)
  | threw (message : String)
deriving DecidableEq, Repr

/-- The four sync-status keys written to `chrome.storage.local`
(background.js lines 389–396 and 404–409). The timestamp is abstracted
to a `Nat` value of "now". -/
structure SyncStorageRec where
  lastSyncStatus : String
  syncInProgress : Bool
  lastSyncMessage : String
  lastSyncDate : Option Nat
deriving DecidableEq, Repr

/-- The `{success, message}` value `startSync` returns. -/
structure SyncResponse where
  success : Bool
  message : String
deriving DecidableEq, Repr

/-- `startSync` (background.js lines 385–416). `counter` is the settled
counter going in; `recount` stands for what the `initCounter()` call on
the success path would settle it to. On a reported failure or a thrown
error the counter is untouched and the storage record gets a failed
outcome, `inProgress = false`, the message and the run timestamp. -/
def startSync (counter recount : Counter) (outcome : SyncOutcome)
    (now : Nat) : Counter × SyncStorageRec × SyncResponse :=
  match outcome with
  | .completed success msg =>
    (if success then recount else counter,
      ⟨if success then "success" else "failed", false, msg, some now⟩,
      ⟨success, msg⟩)
  | .threw msg =>
    (counter, ⟨"failed", false, msg, some now⟩,
      ⟨false, "Error during synchronization: " ++ msg⟩)

/-! ## `initCounter` (`LeetCodeTrackerController.initCounter`) -/

/-- The `LeetCodeStateManager` state (background.js lines 14–25), with
`lastUpdate` abstracted to whether it has been set. -/
structure ManagerState where
  counter : Counter
  isCountingComplete : Bool
  lastUpdateSet : Bool
  loading : Bool
deriving DecidableEq, Repr

/-- `reset` (background.js lines 96–101). -/
def resetState (_st : ManagerState) : ManagerState :=
  ⟨⟨0, 0, 0⟩, false, false, true⟩

/-- JS truthiness of a possibly-missing string setting. -/
def truthyStr (s : Option String) : Bool :=
  match s with
  | none => false
  | some v => v != ""

/-- The three stored configuration keys `initCounter` reads. -/
structure StoredConfig where
  token : Option String
  username : Option String
  repo : Option String
deriving DecidableEq, Repr

/-- `initCounter` (background.js lines 437–486), paired with the number
of state broadcasts it performs. Missing configuration exits early with
`loading = false`, `isCountingComplete = true` and a broadcast. A
complete configuration resets the state, then the parallel fetch either
yields the problem list and catalog (recount via `updateStats`, which
sets the flags and broadcasts) or throws (the `catch` sets the flags and
broadcasts). -/
def initCounter (st : ManagerState) (cfg : StoredConfig)
    (fetched : Except String (List RepoProblem × List (String × String))) :
    ManagerState × Nat :=
  if truthyStr cfg.token && truthyStr cfg.username && truthyStr cfg.repo then
    let st1 := resetState st
    match fetched with
    | .ok (problems, questions) =>
      (⟨updateStats (computeDifficulties problems questions), true, true,
        false⟩, 1)
    | .error _ =>
      ({ st1 with loading := false, isCountingComplete := true }, 1)
  else
    ({ st with loading := false, isCountingComplete := true }, 1)

/-! ## Submission poller (`Problem`, src/unnamed/part_002) -/

/-- The fields of the normalized submission record that the polling loop
inspects, plus the problem identifier it carries. `fetchSubmissionData`
always produces `finished = true`, `state = "SUCCESS"`, but
`pollForSubmissionData` is written against the general shape. -/
structure SubmissionData where
  state : String
  statusMsg : String
  finished : Bool
  questionId : String
deriving DecidableEq, Repr

/-- The result-readiness loop `pollForSubmissionData` (part_002 lines
110–155), instrumented with the attempt number at which it returns.
`responses i` is what `fetchSubmissionData` yields on attempt `i`
(1-based). No data stops polling at once; a `PENDING` state loops; a
finished response is returned whatever its status; an unfinished,
non-pending response loops. The ceiling is 10 attempts. -/
def pollFrom (responses : Nat → Option SubmissionData) :
    Nat → Nat → Option (SubmissionData × Nat)
  | 0, _ => none
  | remaining + 1, attempt =>
    match responses attempt with
    | none => none
    | some d =>
      if d.state = "PENDING" then pollFrom responses remaining (attempt + 1)
      else if d.statusMsg = "Accepted" && d.finished then some (d, attempt)
      else if d.finished then some (d, attempt)
      else pollFrom responses remaining (attempt + 1)

/-- `pollForSubmissionData` with the attempt count of the successful
poll. -/
def pollForSubmissionDataI (responses : Nat → Option SubmissionData) :
    Option (SubmissionData × Nat) :=
  pollFrom responses 10 1

/-- `pollForSubmissionData` as the source returns it. -/
def pollForSubmissionData (responses : Nat → Option SubmissionData) :
    Option SubmissionData :=
  (pollForSubmissionDataI responses).map (·.1)

/-- The location-resolution loop `waitForSubmissionURL` (part_002 lines
73–93), instrumented with the attempt number: probe the URL once per
attempt, up to 20 attempts, returning the first submission identifier
seen. -/
def waitFrom (probe : Nat → Option String) :
    Nat → Nat → Option (String × Nat)
  | 0, _ => none
  | remaining + 1, attempt =>
    match probe attempt with
    | some sid => some (sid, attempt)
    | none => waitFrom probe remaining (attempt + 1)

/-- `waitForSubmissionURL` with the attempt count. -/
def waitForSubmissionURLI (probe : Nat → Option String) :
    Option (String × Nat) :=
  waitFrom probe 20 1

/-- `waitForSubmissionURL` as the source returns it: the identifier, or
`null` on exhaustion. -/
def waitForSubmissionURL (probe : Nat → Option String) : Option String :=
  (waitForSubmissionURLI probe).map (·.1)

/-- `extractSubmissionStatsFromURL` (part_002 lines 39–66): resolve the
submission identifier (throwing when it never appears), poll for the
structured data, and either hand the data to
`extractSubmissionStatsFromAPI` (modelled by returning it) or throw
`'Failed to fetch submission data'`; the outer `catch` rethrows, so every
failure is an `Except.error` to the caller. -/
def extractSubmissionStatsFromURL (probe : Nat → Option String)
    (responses : Nat → Option SubmissionData) :
    Except String SubmissionData :=
  match waitForSubmissionURL probe with
  | none => .error "No submission ID in URL"
  | some _sid =>
    match pollForSubmissionData responses with
    | some d => .ok d
    | none => .error "Failed to fetch submission data"

/-- Whether a difficulty value survives the `updateStats` guard and
lower-cases to tier `t`. -/
def tierHit (t : String) (d : Option String) : Bool :=
  match d with
  | none => false
  | some s => s != "" && jsToLowerCase s == t

/-! ## Decimal printing: `parseInt(...).toString()` versus literal
leading-zero stripping -/

/-- Reference big-endian decimal digit list of a natural number. -/
def decDigits (n : Nat) : List Char :=
  if _h : n < 10 then [Nat.digitChar n]
  else decDigits (n / 10) ++ [Nat.digitChar (n % 10)]
decreasing_by
  exact Nat.div_lt_self (by omega) (by omega)

lemma decDigits_lt {n : Nat} (h : n < 10) :
    decDigits n = [Nat.digitChar n] := by
  rw [decDigits, dif_pos h]

lemma decDigits_ge {n : Nat} (h : 10 ≤ n) :
    decDigits n = decDigits (n / 10) ++ [Nat.digitChar (n % 10)] := by
  rw [decDigits, dif_neg (by omega)]

lemma toDigitsCore_eq (fuel n : Nat) (ds : List Char) (h : n < fuel) :
    Nat.toDigitsCore 10 fuel n ds = decDigits n ++ ds := by
  induction fuel generalizing n ds with
  | zero => omega
  | succ fuel ih =>
    rw [Nat.toDigitsCore]
    by_cases h10 : n / 10 = 0
    · rw [if_pos h10]
      have hn : n < 10 := by omega
      rw [decDigits_lt hn, Nat.mod_eq_of_lt hn]
      rfl
    · rw [if_neg h10]
      have hge : 10 ≤ n := by omega
      have hlt2 : n / 10 < fuel := by omega
      rw [ih (n / 10) _ hlt2, decDigits_ge hge]
      simp

/-- `Nat.repr` produces exactly the reference digit list. -/
lemma repr_data (n : Nat) : (Nat.repr n).data = decDigits n := by
  show (List.asString (Nat.toDigitsCore 10 (n + 1) n [])).data = decDigits n
  rw [toDigitsCore_eq (n + 1) n [] (by omega)]
  simp [List.asString]

/-- A digit character is recovered by `Nat.digitChar` from its value. -/
lemma digitChar_inv (ch : Char) (h : isDigitChar ch = true) :
    Nat.digitChar (digitVal ch) = ch ∧ digitVal ch < 10 := by
  rw [isDigitChar] at h
  have hc := Char.ofNat_toNat ch
  have h48 : 48 ≤ ch.toNat := by simpa using (Bool.and_eq_true _ _ |>.mp h).1
  have h57 : ch.toNat ≤ 57 := by
    have := (Bool.and_eq_true _ _ |>.mp h).2
    simpa using this
  rw [digitVal]
  interval_cases h' : ch.toNat <;> exact ⟨by rw [← hc]; decide, by omega⟩

lemma strip_cons_zero (rest : List Char) :
    stripLeadingZeros ('0' :: rest) = stripLeadingZeros rest := by
  simp [stripLeadingZeros, List.dropWhile]

lemma strip_cons_nonzero (x : Char) (rest : List Char)
    (hx : (x == '0') = false) : stripLeadingZeros (x :: rest) = x :: rest := by
  simp [stripLeadingZeros, List.dropWhile, hx]

lemma digitChar_ne_zero {k : Nat} (hk : k < 10) (hk0 : k ≠ 0) :
    (Nat.digitChar k == '0') = false := by
  interval_cases k <;> simp_all <;> decide

lemma decDigits_append_digit {m d : Nat} (hm : m ≠ 0) (hd : d < 10) :
    decDigits (10 * m + d) = decDigits m ++ [Nat.digitChar d] := by
  have hge : 10 ≤ 10 * m + d := by omega
  have hdiv : (10 * m + d) / 10 = m := by omega
  have hmod : (10 * m + d) % 10 = d := by omega
  rw [decDigits_ge hge, hdiv, hmod]

/-- The decimal print of a four-digit value is exactly the four digit
characters with leading zeros stripped. -/
lemma decDigits_four (a b c d : Nat) (ha : a < 10) (hb : b < 10)
    (hc : c < 10) (hd : d < 10) :
    decDigits (1000 * a + 100 * b + 10 * c + d) =
      stripLeadingZeros [Nat.digitChar a, Nat.digitChar b, Nat.digitChar c,
        Nat.digitChar d] := by
  have dc0 : Nat.digitChar 0 = '0' := by decide
  by_cases ha0 : a = 0
  · subst ha0
    rw [dc0, strip_cons_zero]
    simp only [Nat.mul_zero, Nat.zero_add]
    by_cases hb0 : b = 0
    · subst hb0
      rw [dc0, strip_cons_zero]
      simp only [Nat.mul_zero, Nat.zero_add]
      by_cases hc0 : c = 0
      · subst hc0
        rw [dc0, strip_cons_zero]
        simp only [Nat.mul_zero, Nat.zero_add]
        by_cases hd0 : d = 0
        · subst hd0
          rw [dc0, strip_cons_zero]
          rw [decDigits_lt (by omega), dc0]
          rfl
        · rw [strip_cons_nonzero _ _ (digitChar_ne_zero hd hd0)]
          rw [decDigits_lt hd]
      · rw [strip_cons_nonzero _ _ (digitChar_ne_zero hc hc0)]
        rw [decDigits_append_digit hc0 hd, decDigits_lt hc]
        rfl
    · rw [strip_cons_nonzero _ _ (digitChar_ne_zero hb hb0)]
      have h1 : 100 * b + 10 * c + d = 10 * (10 * b + c) + d := by ring
      rw [h1, decDigits_append_digit (by omega) hd,
        decDigits_append_digit hb0 hc, decDigits_lt hb]
      rfl
  · rw [strip_cons_nonzero _ _ (digitChar_ne_zero ha ha0)]
    have h1 : 1000 * a + 100 * b + 10 * c + d =
        10 * (10 * (10 * a + b) + c) + d := by ring
    rw [h1, decDigits_append_digit (by omega) hd,
      decDigits_append_digit (by omega) hc,
      decDigits_append_digit ha0 hb, decDigits_lt ha]
    rfl

/-- Short inputs (fewer than five characters) hit the default branch of
the derivation. -/
lemma convert_short (s : String) (h : s.data.length ≤ 4) :
    convertGithubToLeetCodeSlug s = "" := by
  rcases hsd : s.data with _ | ⟨a, _ | ⟨b, _ | ⟨c, _ | ⟨d, _ | ⟨e, t⟩⟩⟩⟩⟩ <;>
    simp only [convertGithubToLeetCodeSlug, hsd]
  exfalso
  rw [hsd] at h
  simp at h

/-! ## Counter characterization -/

/-- Folding the `updateStats` loop adds, per tier, exactly the number of
difficulty values that survive the guard and lower-case to that tier. -/
lemma foldl_step_counts (ds : List (Option String)) (c : Counter) :
    ds.foldl updateStatsStep c =
      ⟨c.easy + (ds.countP (tierHit "easy") : Int),
       c.medium + (ds.countP (tierHit "medium") : Int),
       c.hard + (ds.countP (tierHit "hard") : Int)⟩ := by
  induction ds generalizing c with
  | nil => simp
  | cons d ds ih =>
    rw [List.foldl_cons, ih]
    cases d with
    | none =>
      simp [updateStatsStep, tierHit, List.countP_cons]
    | some s =>
      by_cases hs : s = ""
      · subst hs
        simp [updateStatsStep, tierHit, List.countP_cons]
      · by_cases he : jsToLowerCase s = "easy"
        · simp [updateStatsStep, tierHit, hs, he, List.countP_cons,
            Counter.mk.injEq]
          omega
        · by_cases hm : jsToLowerCase s = "medium"
          · simp [updateStatsStep, tierHit, hs, he, hm, List.countP_cons,
              Counter.mk.injEq]
            omega
          · by_cases hh : jsToLowerCase s = "hard"
            · simp [updateStatsStep, tierHit, hs, he, hm, hh,
                List.countP_cons, Counter.mk.injEq]
              omega
            · simp [updateStatsStep, tierHit, hs, he, hm, hh,
                List.countP_cons]

/-- The three tier tests are mutually exclusive and only fire on present
values. -/
lemma tierHit_sum_le_one (d : Option String) :
    (if tierHit "easy" d then 1 else 0) + (if tierHit "medium" d then 1 else 0)
      + (if tierHit "hard" d then 1 else 0) ≤
      (if d.isSome then 1 else 0 : Nat) := by
  cases d with
  | none => simp [tierHit]
  | some s =>
    by_cases hs : s = ""
    · simp [tierHit, hs]
    · by_cases he : jsToLowerCase s = "easy" <;> by_cases hm : jsToLowerCase s = "medium"
        <;> by_cases hh : jsToLowerCase s = "hard" <;>
        simp_all [tierHit]

lemma tierHit_counts_le (ds : List (Option String)) :
    ds.countP (tierHit "easy") + ds.countP (tierHit "medium") +
      ds.countP (tierHit "hard") ≤ ds.countP (fun d => d.isSome) := by
  induction ds with
  | nil => simp
  | cons d ds ih =>
    simp only [List.countP_cons]
    have hd := tierHit_sum_le_one d
    omega

/-! ## Claim theorems: canonical-identifier derivation -/

/-- C1 (counterexample): the derivation is not idempotent. On the
pattern-matching filename `"0001 two-sum.py"` the derivation yields
`"1"`, but applying it to that output yields `""`, because the output no
longer carries a four-digit-plus-whitespace prefix. -/
theorem c1_idempotence_counterexample :
    matchesProblemPattern "0001 two-sum.py" = true ∧
    convertGithubToLeetCodeSlug "0001 two-sum.py" = "1" ∧
    convertGithubToLeetCodeSlug
        (convertGithubToLeetCodeSlug "0001 two-sum.py") ≠
      convertGithubToLeetCodeSlug "0001 two-sum.py" := by
  refine ⟨by decide, by decide, ?_⟩
  decide

/-- C1 (amended): for every filename matching `^\d{4}\s+.+\..+$` the
derivation strips the leading zeros of the four-digit prefix (its output
is character-for-character the prefix with leading zeros dropped, `"0"`
for an all-zero prefix); the derivation is not idempotent — applied to
its own output it always yields `""`. -/
theorem c1_convert_strips_leading_zeros (s : String)
    (h : matchesProblemPattern s = true) :
    (convertGithubToLeetCodeSlug s).data =
      stripLeadingZeros (s.data.take 4) ∧
    convertGithubToLeetCodeSlug (convertGithubToLeetCodeSlug s) = "" := by
  unfold matchesProblemPattern at h
  rcases hsd : s.data with _ | ⟨d1, _ | ⟨d2, _ | ⟨d3, _ | ⟨d4, rest⟩⟩⟩⟩ <;>
    rw [hsd] at h <;> simp at h
  obtain ⟨⟨⟨⟨h1, h2⟩, h3⟩, h4⟩, hws⟩ := h
  rcases rest with _ | ⟨w, rest'⟩
  · simp [wsThenTailMatch] at hws
  rw [wsThenTailMatch] at hws
  have hw : jsWhitespaceChar w = true := (Bool.and_eq_true _ _ |>.mp hws).1
  obtain ⟨e1, l1⟩ := digitChar_inv d1 h1
  obtain ⟨e2, l2⟩ := digitChar_inv d2 h2
  obtain ⟨e3, l3⟩ := digitChar_inv d3 h3
  obtain ⟨e4, l4⟩ := digitChar_inv d4 h4
  have hconv : convertGithubToLeetCodeSlug s =
      Nat.repr (1000 * digitVal d1 + 100 * digitVal d2 + 10 * digitVal d3 +
        digitVal d4) := by
    unfold convertGithubToLeetCodeSlug
    rw [hsd]
    simp [h1, h2, h3, h4, hw]
  constructor
  · rw [hconv, repr_data]
    have htake : (d1 :: d2 :: d3 :: d4 :: w :: rest').take 4 =
        [d1, d2, d3, d4] := rfl
    have h4d := decDigits_four (digitVal d1) (digitVal d2) (digitVal d3)
      (digitVal d4) l1 l2 l3 l4
    rw [e1, e2, e3, e4] at h4d
    rw [htake]
    exact h4d
  · rw [hconv]
    apply convert_short
    have hlen := Nat.repr_length
      (1000 * digitVal d1 + 100 * digitVal d2 + 10 * digitVal d3 +
        digitVal d4) 4 (by omega) (by omega)
    exact hlen

/-- C1 witness: the amended theorem applied to `"0001 two-sum.py"`. -/
theorem c1_convert_strips_leading_zeros_witness :
    (convertGithubToLeetCodeSlug "0001 two-sum.py").data =
      stripLeadingZeros ("0001 two-sum.py".data.take 4) ∧
    convertGithubToLeetCodeSlug
      (convertGithubToLeetCodeSlug "0001 two-sum.py") = "" :=
  c1_convert_strips_leading_zeros "0001 two-sum.py" (by decide)

/-! ## Claim theorems: repository scanner -/

/-- C5: the scanner never propagates a fetch failure. A top-level non-ok
response or thrown error yields `[]`, and a per-directory failure is
isolated: any file of any directory whose own fetch succeeds still
appears in the output, whatever the other directories' fetches do. -/
theorem c5_scanner_failure_isolation
    (ff : String → FetchOutcome (List RepoEntry)) :
    getAllLeetCodeProblems .notOk ff = [] ∧
    getAllLeetCodeProblems .threw ff = [] ∧
    ∀ (data folderData : List RepoEntry) (folder f : RepoEntry),
      folder ∈ data → folder.type = "dir" →
      ff folder.name = .ok folderData → f ∈ folderData →
      f.type = "file" → matchesProblemPattern f.name = true →
      (⟨f.name, convertGithubToLeetCodeSlug f.name, folder.name⟩ :
        RepoProblem) ∈ getAllLeetCodeProblems (.ok data) ff := by
  refine ⟨rfl, rfl, ?_⟩
  intro data folderData folder f hmem htype hff hfmem hftype hfmatch
  rw [getAllLeetCodeProblems, List.mem_flatMap]
  refine ⟨folder, ?_, ?_⟩
  · rw [List.mem_filter]
    exact ⟨hmem, by simp [htype]⟩
  · rw [scanFolder, hff, List.mem_map]
    refine ⟨f, ?_, rfl⟩
    rw [List.mem_filter]
    exact ⟨hfmem, by simp [hftype, hfmatch]⟩

/-- C5 witness: a repository whose `python` directory fetch throws while
the `js` directory fetch succeeds still reports the `js` file. -/
theorem c5_scanner_failure_isolation_witness :
    (⟨"0001 two-sum.js", convertGithubToLeetCodeSlug "0001 two-sum.js",
      "js"⟩ : RepoProblem) ∈
      getAllLeetCodeProblems
        (.ok [⟨"python", "dir"⟩, ⟨"js", "dir"⟩])
        (fun n => if n = "js" then .ok [⟨"0001 two-sum.js", "file"⟩]
          else .threw) :=
  (c5_scanner_failure_isolation
    (fun n => if n = "js" then .ok [⟨"0001 two-sum.js", "file"⟩]
      else .threw)).2.2
    [⟨"python", "dir"⟩, ⟨"js", "dir"⟩] [⟨"0001 two-sum.js", "file"⟩]
    ⟨"js", "dir"⟩ ⟨"0001 two-sum.js", "file"⟩
    (by simp) rfl (by simp) (by simp) rfl (by decide)

/-- C9: zero false positives. Every problem the scanner emits originates
from a `"file"`-typed entry of a successfully fetched directory whose
name matches `^\d{4}\s+.+\..+$`, and its identifier is the canonical
derivation of that name; entries that are not files, or whose names do
not match, never appear. -/
theorem c9_scanner_only_matching_files
    (top : FetchOutcome (List RepoEntry))
    (ff : String → FetchOutcome (List RepoEntry)) (p : RepoProblem)
    (hp : p ∈ getAllLeetCodeProblems top ff) :
    matchesProblemPattern p.originalName = true ∧
    p.questionId = convertGithubToLeetCodeSlug p.originalName ∧
    ∃ folderData f, ff p.language = .ok folderData ∧ f ∈ folderData ∧
      f.type = "file" ∧ f.name = p.originalName := by
  cases top with
  | notOk => simp [getAllLeetCodeProblems] at hp
  | threw => simp [getAllLeetCodeProblems] at hp
  | ok data =>
    rw [getAllLeetCodeProblems, List.mem_flatMap] at hp
    obtain ⟨folder, _hfolder, hmem⟩ := hp
    rw [scanFolder] at hmem
    cases hff : ff folder.name with
    | notOk => rw [hff] at hmem; simp at hmem
    | threw => rw [hff] at hmem; simp at hmem
    | ok folderData =>
      rw [hff, List.mem_map] at hmem
      obtain ⟨f, hf, hpeq⟩ := hmem
      rw [List.mem_filter] at hf
      obtain ⟨hfmem, hcond⟩ := hf
      have hftype : f.type = "file" := by
        have := (Bool.and_eq_true _ _ |>.mp hcond).1
        simpa using this
      have hfmatch : matchesProblemPattern f.name = true :=
        (Bool.and_eq_true _ _ |>.mp hcond).2
      subst hpeq
      exact ⟨hfmatch, rfl, folderData, f, hff, hfmem, hftype, rfl⟩

/-- C9 witness: the provenance theorem applied to a concrete scan that
emits one problem. -/
theorem c9_scanner_only_matching_files_witness :
    matchesProblemPattern
      (⟨"0001 two-sum.py", "1", "python"⟩ : RepoProblem).originalName =
        true ∧
    (⟨"0001 two-sum.py", "1", "python"⟩ : RepoProblem).questionId =
      convertGithubToLeetCodeSlug
        (⟨"0001 two-sum.py", "1", "python"⟩ : RepoProblem).originalName ∧
    ∃ folderData f,
      (fun _ : String =>
        (.ok [⟨"0001 two-sum.py", "file"⟩, ⟨"notes.txt", "file"⟩] :
          FetchOutcome (List RepoEntry)))
          (⟨"0001 two-sum.py", "1", "python"⟩ : RepoProblem).language =
        .ok folderData ∧
      f ∈ folderData ∧ f.type = "file" ∧
      f.name = (⟨"0001 two-sum.py", "1", "python"⟩ :
        RepoProblem).originalName :=
  c9_scanner_only_matching_files
    (.ok [⟨"python", "dir"⟩])
    (fun _ => .ok [⟨"0001 two-sum.py", "file"⟩, ⟨"notes.txt", "file"⟩])
    ⟨"0001 two-sum.py", "1", "python"⟩ (by decide)

/-! ## Claim theorems: reconciliation counting -/

/-- C4: the reconciliation counts files, not distinct problems. Per tier,
`updateStats` produces exactly the number of list entries whose catalog
lookup hit that tier, so each matched file contributes one unit to
exactly one counter; and the same problem scanned from two language
folders against an `Easy` catalog entry yields an easy count of 2. -/
theorem c4_counts_files_not_problems :
    (∀ (ps : List RepoProblem) (qs : List (String × String)),
      reconcile ps qs =
        ⟨(ps.countP
            (fun p => tierHit "easy" (difficultyMapGet qs p.questionId)) :
          Int),
         (ps.countP
            (fun p => tierHit "medium" (difficultyMapGet qs p.questionId)) :
          Int),
         (ps.countP
            (fun p => tierHit "hard" (difficultyMapGet qs p.questionId)) :
          Int)⟩) ∧
    reconcile
      (getAllLeetCodeProblems
        (.ok [⟨"python", "dir"⟩, ⟨"js", "dir"⟩])
        (fun n =>
          if n = "python" then .ok [⟨"0001 two-sum.py", "file"⟩]
          else if n = "js" then .ok [⟨"0001 two-sum.js", "file"⟩]
          else .threw))
      [("1", "Easy")] = ⟨2, 0, 0⟩ := by
  constructor
  · intro ps qs
    rw [reconcile, updateStats, foldl_step_counts]
    simp [computeDifficulties, List.countP_map]
    refine ⟨rfl, rfl, rfl⟩
  · decide

/-- C6: counter invariants. After a wholesale recount all three fields
are non-negative and their sum is bounded by the number of scanned files
whose canonical identifier has a catalog entry; the out-of-band
`incrementCounter` preserves non-negativity and grows the sum by at most
one. -/
theorem c6_counter_invariants (ps : List RepoProblem)
    (qs : List (String × String)) (c : Counter) (d : Option String)
    (hce : 0 ≤ c.easy) (hcm : 0 ≤ c.medium) (hch : 0 ≤ c.hard) :
    0 ≤ (reconcile ps qs).easy ∧ 0 ≤ (reconcile ps qs).medium ∧
    0 ≤ (reconcile ps qs).hard ∧
    (reconcile ps qs).easy + (reconcile ps qs).medium +
        (reconcile ps qs).hard ≤
      ((ps.filter
          (fun p => (difficultyMapGet qs p.questionId).isSome)).length :
        Int) ∧
    0 ≤ (incrementCounter c d).1.easy ∧
    0 ≤ (incrementCounter c d).1.medium ∧
    0 ≤ (incrementCounter c d).1.hard ∧
    (incrementCounter c d).1.easy + (incrementCounter c d).1.medium +
        (incrementCounter c d).1.hard ≤
      c.easy + c.medium + c.hard + 1 := by
  have hrec : reconcile ps qs =
      ⟨((computeDifficulties ps qs).countP (tierHit "easy") : Int),
       ((computeDifficulties ps qs).countP (tierHit "medium") : Int),
       ((computeDifficulties ps qs).countP (tierHit "hard") : Int)⟩ := by
    rw [reconcile, updateStats, foldl_step_counts]
    simp
  have hsum := tierHit_counts_le (computeDifficulties ps qs)
  have hlen : (computeDifficulties ps qs).countP (fun x => x.isSome) =
      (ps.filter
        (fun p => (difficultyMapGet qs p.questionId).isSome)).length := by
    rw [computeDifficulties, List.countP_map, List.countP_eq_length_filter]
    rfl
  have hinc : 0 ≤ (incrementCounter c d).1.easy ∧
      0 ≤ (incrementCounter c d).1.medium ∧
      0 ≤ (incrementCounter c d).1.hard ∧
      (incrementCounter c d).1.easy + (incrementCounter c d).1.medium +
          (incrementCounter c d).1.hard ≤
        c.easy + c.medium + c.hard + 1 := by
    cases d with
    | none => simp [incrementCounter]; omega
    | some s =>
      by_cases hs : s = ""
      · simp [incrementCounter, hs]; omega
      · by_cases he : jsToLowerCase s = "easy"
        · simp [incrementCounter, hs, he]; omega
        · by_cases hm : jsToLowerCase s = "medium"
          · simp [incrementCounter, hs, he, hm]; omega
          · by_cases hh : jsToLowerCase s = "hard"
            · simp [incrementCounter, hs, he, hm, hh]; omega
            · simp [incrementCounter, hs, he, hm, hh]; omega
  refine ⟨?_, ?_, ?_, ?_, hinc⟩ <;> rw [hrec] <;> simp <;> omega

/-- C6 witness: the invariant theorem at a concrete recount (one matched
easy file, one unmatched file) and a concrete increment. -/
theorem c6_counter_invariants_witness :
    0 ≤ (reconcile [⟨"0001 two-sum.py", "1", "python"⟩,
        ⟨"0099 unmatched.py", "99", "python"⟩] [("1", "Easy")]).easy ∧
    0 ≤ (reconcile [⟨"0001 two-sum.py", "1", "python"⟩,
        ⟨"0099 unmatched.py", "99", "python"⟩] [("1", "Easy")]).medium ∧
    0 ≤ (reconcile [⟨"0001 two-sum.py", "1", "python"⟩,
        ⟨"0099 unmatched.py", "99", "python"⟩] [("1", "Easy")]).hard ∧
    (reconcile [⟨"0001 two-sum.py", "1", "python"⟩,
        ⟨"0099 unmatched.py", "99", "python"⟩] [("1", "Easy")]).easy +
        (reconcile [⟨"0001 two-sum.py", "1", "python"⟩,
          ⟨"0099 unmatched.py", "99", "python"⟩] [("1", "Easy")]).medium +
        (reconcile [⟨"0001 two-sum.py", "1", "python"⟩,
          ⟨"0099 unmatched.py", "99", "python"⟩] [("1", "Easy")]).hard ≤
      (([⟨"0001 two-sum.py", "1", "python"⟩,
          ⟨"0099 unmatched.py", "99", "python"⟩] : List RepoProblem).filter
          (fun p =>
            (difficultyMapGet [("1", "Easy")] p.questionId).isSome)).length ∧
    0 ≤ (incrementCounter ⟨1, 2, 3⟩ (some "Easy")).1.easy ∧
    0 ≤ (incrementCounter ⟨1, 2, 3⟩ (some "Easy")).1.medium ∧
    0 ≤ (incrementCounter ⟨1, 2, 3⟩ (some "Easy")).1.hard ∧
    (incrementCounter ⟨1, 2, 3⟩ (some "Easy")).1.easy +
        (incrementCounter ⟨1, 2, 3⟩ (some "Easy")).1.medium +
        (incrementCounter ⟨1, 2, 3⟩ (some "Easy")).1.hard ≤
      (1 : Int) + 2 + 3 + 1 :=
  c6_counter_invariants
    [⟨"0001 two-sum.py", "1", "python"⟩,
      ⟨"0099 unmatched.py", "99", "python"⟩]
    [("1", "Easy")] ⟨1, 2, 3⟩ (some "Easy")
    (by decide) (by decide) (by decide)

/-! ## Claim theorems: sync orchestration -/

/-- C7: a failed sync run — whether the sync service reports failure or
throws — leaves the settled counter untouched (no recount is applied) and
writes `inProgress = false`, a `"failed"` outcome, the error message and
the run timestamp to the status record. -/
theorem c7_failed_sync_frame (counter recount : Counter) (msg : String)
    (now : Nat) :
    startSync counter recount (.completed false msg) now =
      (counter, ⟨"failed", false, msg, some now⟩, ⟨false, msg⟩) ∧
    startSync counter recount (.threw msg) now =
      (counter, ⟨"failed", false, msg, some now⟩,
        ⟨false, "Error during synchronization: " ++ msg⟩) := by
  constructor
  · rfl
  · rfl

/-! ## Claim theorems: counter initialization -/

/-- C10: `initCounter` never propagates a failure and never leaves
observers loading: on every input — missing configuration, a fetch-stage
error (including the internal exceptions absorbed by its `catch`), or a
completed recount — it returns a state with `loading = false` and
`isCountingComplete = true` and performs exactly one broadcast. -/
theorem c10_initCounter_always_completes (st : ManagerState)
    (cfg : StoredConfig)
    (fetched : Except String (List RepoProblem × List (String × String))) :
    (initCounter st cfg fetched).1.loading = false ∧
    (initCounter st cfg fetched).1.isCountingComplete = true ∧
    (initCounter st cfg fetched).2 = 1 := by
  rw [initCounter]
  by_cases hcfg : (truthyStr cfg.token && truthyStr cfg.username &&
      truthyStr cfg.repo) = true
  · rw [if_pos hcfg]
    cases fetched with
    | ok pq => exact ⟨rfl, rfl, rfl⟩
    | error e => exact ⟨rfl, rfl, rfl⟩
  · rw [if_neg hcfg]
    exact ⟨rfl, rfl, rfl⟩

/-! ## Claim theorems: submission poller -/

/-- C8: the location-resolution loop is bounded. Whenever it returns an
identifier it did so at some attempt within the 20-attempt ceiling after
probing `none` on every earlier attempt, and if the probe yields nothing
on all 20 attempts the loop returns `null`. -/
theorem c8_waitForSubmissionURL_bounded (probe : Nat → Option String) :
    (∀ sid a, waitForSubmissionURLI probe = some (sid, a) →
      1 ≤ a ∧ a ≤ 20 ∧ probe a = some sid ∧
        ∀ i, 1 ≤ i → i < a → probe i = none) ∧
    ((∀ i, 1 ≤ i → i ≤ 20 → probe i = none) →
      waitForSubmissionURL probe = none) := by
  have key : ∀ (remaining start : Nat) (sid : String) (a : Nat),
      waitFrom probe remaining start = some (sid, a) →
      start ≤ a ∧ a < start + remaining ∧ probe a = some sid ∧
        ∀ i, start ≤ i → i < a → probe i = none := by
    intro remaining
    induction remaining with
    | zero => intro start sid a h; simp [waitFrom] at h
    | succ remaining ih =>
      intro start sid a h
      rw [waitFrom] at h
      cases hp : probe start with
      | some v =>
        rw [hp] at h
        obtain ⟨hv, ha⟩ := by simpa using h
        subst ha
        exact ⟨le_refl _, by omega, by rw [hp, hv], fun i h1 h2 => by omega⟩
      | none =>
        rw [hp] at h
        obtain ⟨h1, h2, h3, h4⟩ := ih (start + 1) sid a h
        refine ⟨by omega, by omega, h3, fun i hi1 hi2 => ?_⟩
        rcases Nat.eq_or_lt_of_le hi1 with heq | hlt
        · rw [← heq]; exact hp
        · exact h4 i hlt hi2
  have keyNone : ∀ (remaining start : Nat),
      (∀ i, start ≤ i → i < start + remaining → probe i = none) →
      waitFrom probe remaining start = none := by
    intro remaining
    induction remaining with
    | zero => intro start _h; rfl
    | succ remaining ih =>
      intro start hall
      rw [waitFrom, hall start (le_refl _) (by omega)]
      exact ih (start + 1) (fun i h1 h2 => hall i (by omega) (by omega))
  constructor
  · intro sid a h
    obtain ⟨h1, h2, h3, h4⟩ := key 20 1 sid a h
    exact ⟨h1, by omega, h3, fun i hi1 hi2 => h4 i hi1 hi2⟩
  · intro hall
    rw [waitForSubmissionURL, waitForSubmissionURLI,
      keyNone 20 1 (fun i h1 h2 => hall i h1 (by omega))]
    rfl

/-- C8 witness: the bound theorem applied to a probe that reveals the
identifier on attempt 3, and to a probe that never does. -/
theorem c8_waitForSubmissionURL_bounded_witness :
    (1 ≤ 3 ∧ 3 ≤ 20 ∧
      (fun i => if i = 3 then some "1774457019" else none) 3 =
        some "1774457019" ∧
      ∀ i, 1 ≤ i → i < 3 →
        (fun i => if i = 3 then some "1774457019" else none) i = none) ∧
    waitForSubmissionURL (fun _ => none) = none := by
  constructor
  · exact (c8_waitForSubmissionURL_bounded
      (fun i => if i = 3 then some "1774457019" else none)).1
      "1774457019" 3 (by decide)
  · exact (c8_waitForSubmissionURL_bounded (fun _ => none)).2
      (fun _ _ _ => rfl)

/-- A finished response is returned at the attempt it arrives, whatever
its terminal status. -/
lemma pollFrom_finished (responses : Nat → Option SubmissionData)
    (n a : Nat) (d : SubmissionData) (hr : responses a = some d)
    (hst : d.state ≠ "PENDING") (hf : d.finished = true) :
    pollFrom responses (n + 1) a = some (d, a) := by
  simp only [pollFrom, hr]
  rw [if_neg hst]
  by_cases hacc : d.statusMsg = "Accepted"
  · rw [if_pos (by simp [hacc, hf])]
  · rw [if_neg (by simp [hacc]), if_pos hf]

/-- Consecutive `PENDING` responses are skipped one attempt at a time. -/
lemma pollFrom_skip_pendings (responses : Nat → Option SubmissionData)
    (m : Nat) :
    ∀ start n, (∀ i, start ≤ i → i < start + m →
      ∃ p, responses i = some p ∧ p.state = "PENDING") →
    pollFrom responses (m + n) start = pollFrom responses n (start + m) := by
  induction m with
  | zero => intro start n _h; rw [Nat.zero_add, Nat.add_zero]
  | succ m ih =>
    intro start n hall
    obtain ⟨p, hp, hpend⟩ := hall start (le_refl _) (by omega)
    have hstep : pollFrom responses (m + n + 1) start =
        pollFrom responses (m + n) (start + 1) := by
      simp only [pollFrom, hp]
      rw [if_pos hpend]
    have harith : m + 1 + n = m + n + 1 := by omega
    rw [harith, hstep,
      ih (start + 1) n (fun i h1 h2 => hall i (by omega) (by omega))]
    have : start + 1 + m = start + (m + 1) := by omega
    rw [this]

/-- C3: per-poll behaviour of the result-readiness loop. No data returns
`null` at once; a finished response is returned as non-null regardless of
status; a pending response continues to the next attempt; and a context
answering `PENDING` on attempts 1–9 and a finished `Accepted` response on
attempt 10 yields that data at exactly the tenth poll cycle. -/
theorem c3_pollForSubmissionData_per_poll
    (responses : Nat → Option SubmissionData) (d : SubmissionData) :
    (responses 1 = none → pollForSubmissionData responses = none) ∧
    (responses 1 = some d → d.state ≠ "PENDING" → d.finished = true →
      pollForSubmissionDataI responses = some (d, 1)) ∧
    (∀ n a, responses a = some d → d.state = "PENDING" →
      pollFrom responses (n + 1) a = pollFrom responses n (a + 1)) ∧
    ((∀ i, 1 ≤ i → i ≤ 9 →
        ∃ p, responses i = some p ∧ p.state = "PENDING") →
      responses 10 = some d → d.state ≠ "PENDING" → d.finished = true →
      pollForSubmissionDataI responses = some (d, 10) ∧
      pollForSubmissionData responses = some d) := by
  refine ⟨?_, ?_, ?_, ?_⟩
  · intro h
    rw [pollForSubmissionData, pollForSubmissionDataI, pollFrom, h]
    rfl
  · intro hr hst hf
    exact pollFrom_finished responses 9 1 d hr hst hf
  · intro n a hr hst
    simp only [pollFrom, hr]
    rw [if_pos hst]
  · intro hpend hr hst hf
    have h10 : pollForSubmissionDataI responses = some (d, 10) := by
      rw [pollForSubmissionDataI,
        show (10 : Nat) = 9 + 1 from rfl,
        pollFrom_skip_pendings responses 9 1 1
          (fun i h1 h2 => hpend i h1 (by omega))]
      exact pollFrom_finished responses 0 10 d hr hst hf
    exact ⟨h10, by rw [pollForSubmissionData, h10]; rfl⟩

/-- C3 witness: the per-poll theorem at a context that answers `PENDING`
nine times and a finished rejected-then-accepted… accepted response on
poll 10. -/
theorem c3_pollForSubmissionData_per_poll_witness :
    pollForSubmissionDataI
        (fun i => if i ≤ 9 then some ⟨"PENDING", "", false, ""⟩
          else some ⟨"SUCCESS", "Accepted", true, "1"⟩) =
      some (⟨"SUCCESS", "Accepted", true, "1"⟩, 10) ∧
    pollForSubmissionData
        (fun i => if i ≤ 9 then some ⟨"PENDING", "", false, ""⟩
          else some ⟨"SUCCESS", "Accepted", true, "1"⟩) =
      some ⟨"SUCCESS", "Accepted", true, "1"⟩ :=
  (c3_pollForSubmissionData_per_poll
    (fun i => if i ≤ 9 then some ⟨"PENDING", "", false, ""⟩
      else some ⟨"SUCCESS", "Accepted", true, "1"⟩)
    ⟨"SUCCESS", "Accepted", true, "1"⟩).2.2.2
    (fun i h1 h2 => ⟨⟨"PENDING", "", false, ""⟩, by simp [h2], rfl⟩)
    (by norm_num) (by decide) rfl

/-- If every attempt within the ceiling stays `PENDING`, the readiness
loop exhausts its budget and returns `null`. -/
lemma pollForSubmissionData_all_pending
    (responses : Nat → Option SubmissionData)
    (h : ∀ i, 1 ≤ i → i ≤ 10 →
      ∃ p, responses i = some p ∧ p.state = "PENDING") :
    pollForSubmissionData responses = none := by
  rw [pollForSubmissionData, pollForSubmissionDataI,
    show (10 : Nat) = 10 + 0 from rfl,
    pollFrom_skip_pendings responses 10 1 0
      (fun i h1 h2 => h i h1 (by omega))]
  rfl

/-- C2 (counterexample): with the submission identifier present at once
and a structured source that stays `PENDING` at every poll, the cited
`extractSubmissionStatsFromURL` does not fall back to any secondary
extraction — it propagates the hard error
`'Failed to fetch submission data'` to its caller. -/
theorem c2_no_fallback_counterexample :
    extractSubmissionStatsFromURL (fun _ => some "1774457019")
        (fun _ => some ⟨"PENDING", "", false, ""⟩) =
      .error "Failed to fetch submission data" := by
  rfl

/-- C2 (amended): whenever the submission identifier resolves but the
structured result source never leaves `PENDING` within the 10-poll
ceiling, `extractSubmissionStatsFromURL` returns the hard error
`'Failed to fetch submission data'` — the part_002 `Problem` class has no
unstructured fallback, and its `catch` rethrows. -/
theorem c2_poll_exhaustion_is_hard_error (probe : Nat → Option String)
    (responses : Nat → Option SubmissionData) (sid : String) (a : Nat)
    (hurl : waitForSubmissionURLI probe = some (sid, a))
    (hpend : ∀ i, 1 ≤ i → i ≤ 10 →
      ∃ p, responses i = some p ∧ p.state = "PENDING") :
    extractSubmissionStatsFromURL probe responses =
      .error "Failed to fetch submission data" := by
  have hwait : waitForSubmissionURL probe = some sid := by
    rw [waitForSubmissionURL, hurl]
    rfl
  rw [extractSubmissionStatsFromURL, hwait,
    pollForSubmissionData_all_pending responses hpend]

/-- C2 witness: the amended theorem at the counterexample's input. -/
theorem c2_poll_exhaustion_is_hard_error_witness :
    extractSubmissionStatsFromURL (fun _ => some "1774457020")
        (fun _ => some ⟨"PENDING", "", false, ""⟩) =
      .error "Failed to fetch submission data" :=
  c2_poll_exhaustion_is_hard_error (fun _ => some "1774457020")
    (fun _ => some ⟨"PENDING", "", false, ""⟩) "1774457020" 1 (by decide)
    (fun i _ _ => ⟨⟨"PENDING", "", false, ""⟩, rfl, rfl⟩)
